import Mathlib

/-!
# Verification of the PDF composition engine (`src/pdfService.ts`)

Shallow embedding of the deterministic document-generation algorithm of the
repository: the legacy single-document path (`generatePDF`), the combination
path (`generateWithCombination`), and their shared helpers (`wrapText`,
`hexToRgb`, font resolution, contained aspect-fit, filename validation).

Modelling conventions:
* JavaScript numbers are modelled as rationals (`ℚ`); none of the verified
  properties depend on floating-point rounding.
* `font.widthOfTextAtSize(text, size)` (pdf-lib) is an external text-metric
  oracle, modelled as an abstract function `StdFont → String → ℚ → ℚ`.
* Runtime data objects `{ [key]: string }` are association lists with
  first-match lookup; a missing key is `Option.none` (JS `undefined`).
* File storage is a pure `Store` value; `fs.pathExists`/`readFile` become
  association-list lookups.  PDF bytes are abstracted to the parsed facts the
  engine reads from them (page-0 size); the emitted output is the ordered list
  of draw operations together with the base template and the info-dictionary
  metadata pdf-lib maintains, and serialization is a pure function of that
  state.  `PDFDocument.load` runs with pdf-lib's default
  `updateMetadata: true`, which stamps the wall clock at load time into the
  document's ModificationDate; the `World` clock models that stamp.
* JS truthiness defaults (`v || d`) are modelled by `qOr`/`sOr`/`bOr`, which
  treat `0`, `""` and `false` as absent, exactly as `||` does.
-/

namespace DrawingGen

/-- JS `v || d` for numeric fields: `undefined`, `null` and `0` all fall back. -/
def qOr (v : Option ℚ) (d : ℚ) : ℚ :=
  match v with
  | none => d
  | some x => if x = 0 then d else x

/-- JS `v || d` for string fields: `undefined` and `""` fall back. -/
def sOr (v : Option String) (d : String) : String :=
  match v with
  | none => d
  | some s => if s = "" then d else s

/-- JS `v || false` for boolean fields. -/
def bOr (v : Option Bool) : Bool := v.getD false

/-- JS truthiness filter on an optional string: `""` and `undefined` are falsy. -/
def truthy (v : Option String) : Option String :=
  match v with
  | none => none
  | some s => if s = "" then none else some s

/-- Substring containment, JS `String.prototype.includes` (case-sensitive). -/
def includesStr (s sub : String) : Bool := decide (sub.data <:+: s.data)

/-- JS `String.prototype.toLowerCase` on the ASCII names the service
handles: lowercase every character. -/
def jsToLowerCase (s : String) : String := ⟨s.data.map Char.toLower⟩

/-! ## Colors (`hexToRgb`, pdfService.ts lines 58-67) -/

structure Rgb where
  r : ℚ
  g : ℚ
  b : ℚ
deriving DecidableEq, Repr

/-- One hex digit, as accepted by the source regex `[a-f\d]` with the `i` flag. -/
def isHexDigitJs (c : Char) : Bool :=
  ('0' ≤ c && c ≤ '9') || ('a' ≤ c && c ≤ 'f') || ('A' ≤ c && c ≤ 'F')

/-- Value of one hex digit. -/
def hexNibble (c : Char) : ℚ :=
  if '0' ≤ c && c ≤ '9' then ((c.toNat - '0'.toNat : ℕ) : ℚ)
  else if 'a' ≤ c && c ≤ 'f' then ((c.toNat - 'a'.toNat + 10 : ℕ) : ℚ)
  else ((c.toNat - 'A'.toNat + 10 : ℕ) : ℚ)

/-- `hexToRgb` (pdfService.ts 58-67): parse `#rrggbb` (optional `#`, exactly six
hex digits, case-insensitive) into channel values divided by 255; anything that
fails the regex becomes black. -/
def hexToRgb (hex : String) : Rgb :=
  let s := match hex.data with
    | '#' :: rest => rest
    | l => l
  match s with
  | [c1, c2, c3, c4, c5, c6] =>
    if [c1, c2, c3, c4, c5, c6].all isHexDigitJs then
      { r := (16 * hexNibble c1 + hexNibble c2) / 255
        g := (16 * hexNibble c3 + hexNibble c4) / 255
        b := (16 * hexNibble c5 + hexNibble c6) / 255 }
    else { r := 0, g := 0, b := 0 }
  | _ => { r := 0, g := 0, b := 0 }

/-! ## JS `text.split(' ')` and joining with single spaces -/

/-- JS `text.split(' ')` on character lists: split at every space, keeping empty
fragments (so `"a  b"` yields `["a", "", "b"]` and `""` yields `[""]`). -/
def splitOnSpaceChars : List Char → List (List Char)
  | [] => [[]]
  | c :: rest =>
    match splitOnSpaceChars rest with
    | [] => [[]]
    | w :: ws => if c = ' ' then [] :: w :: ws else (c :: w) :: ws

/-- JS `text.split(' ')`. -/
def jsSplitSpace (text : String) : List String :=
  (splitOnSpaceChars text.data).map (fun w => ⟨w⟩)

/-- Concatenate fragments with single spaces (inverse of `splitOnSpaceChars`). -/
def joinSpaceChars : List (List Char) → List Char
  | [] => []
  | [w] => w
  | w :: ws => w ++ ' ' :: joinSpaceChars ws

/-- Join lines with single spaces, the reconstruction operation of the
word-wrap round-trip property. -/
def joinWithSpaces (lines : List String) : String :=
  ⟨joinSpaceChars (lines.map String.data)⟩

/-! ## `wrapText` (pdfService.ts 69-91)

Greedy word wrap: accumulate words into `currentLine`; when the candidate line
overflows `maxWidth` and the current line is nonempty, flush it and start a new
line with the word.  `font` is the width oracle `font.widthOfTextAtSize`. -/

def wrapTextGo (font : String → ℚ → ℚ) (fontSize maxWidth : ℚ) :
    List String → String → List String
  | [], currentLine => if currentLine = "" then [] else [currentLine]
  | word :: ws, currentLine =>
    let testLine := if currentLine = "" then word else currentLine ++ " " ++ word
    let width := font testLine fontSize
    if width > maxWidth ∧ currentLine ≠ "" then
      currentLine :: wrapTextGo font fontSize maxWidth ws word
    else
      wrapTextGo font fontSize maxWidth ws testLine

/-- `wrapText(text, font, fontSize, maxWidth)` from pdfService.ts 69-91. -/
def wrapText (text : String) (font : String → ℚ → ℚ) (fontSize maxWidth : ℚ) :
    List String :=
  wrapTextGo font fontSize maxWidth (jsSplitSpace text) ""

/-! ## Font resolution -/

/-- The 12 concrete standard fonts the engine can embed. -/
inductive StdFont
  | Helvetica | HelveticaBold | HelveticaOblique | HelveticaBoldOblique
  | TimesRoman | TimesRomanBold | TimesRomanItalic | TimesRomanBoldItalic
  | Courier | CourierBold | CourierOblique | CourierBoldOblique
deriving DecidableEq, Repr

/-- The shared variant-selection block (pdfService.ts 151-170, duplicated
verbatim at 514-532 and 618-636): pick the concrete font from the base family
name and the bold/italic flags; an unrecognized base family falls back to
plain Helvetica. -/
def pickFontByFamily (baseFamily : String) (isBold isItalic : Bool) : StdFont :=
  if baseFamily = "Helvetica" then
    if isBold && isItalic then .HelveticaBoldOblique
    else if isBold then .HelveticaBold
    else if isItalic then .HelveticaOblique
    else .Helvetica
  else if baseFamily = "Times-Roman" then
    if isBold && isItalic then .TimesRomanBoldItalic
    else if isBold then .TimesRomanBold
    else if isItalic then .TimesRomanItalic
    else .TimesRoman
  else if baseFamily = "Courier" then
    if isBold && isItalic then .CourierBoldOblique
    else if isBold then .CourierBold
    else if isItalic then .CourierOblique
    else .Courier
  else .Helvetica

/-- Legacy-path font resolution (pdfService.ts 131-170): substring tests on the
raw family hint pick the base family and OR the suffix-implied flags into the
explicit ones (`Italic` is recognized for Times, `Oblique` for Helvetica and
Courier). -/
def resolveFontLegacy (rawFamily : String) (bold italic : Bool) : StdFont :=
  if includesStr rawFamily "Times" then
    pickFontByFamily "Times-Roman" (bold || includesStr rawFamily "Bold")
      (italic || includesStr rawFamily "Italic")
  else if includesStr rawFamily "Courier" then
    pickFontByFamily "Courier" (bold || includesStr rawFamily "Bold")
      (italic || includesStr rawFamily "Oblique")
  else
    pickFontByFamily "Helvetica" (bold || includesStr rawFamily "Bold")
      (italic || includesStr rawFamily "Oblique")

/-- `l` starts (case-insensitively) with the pattern `pat`. -/
def lowerStartsWith (l pat : List Char) : Bool :=
  decide ((l.take pat.length).map Char.toLower = pat)

/-- One left-to-right pass of the JS `fontFamily.replace` call with the global
case-insensitive pattern `-Bold|-Oblique|-BoldOblique|-Italic|-BoldItalic` and
replacement `''` (pdfService.ts 512, 616).  JS alternation is ordered, so
`-Bold` always wins
over `-BoldOblique`/`-BoldItalic`; scanning resumes after each removed match
without rescanning emitted text. -/
def stripVariantFuel : Nat → List Char → List Char
  | 0, l => l
  | _ + 1, [] => []
  | fuel + 1, c :: rest =>
    if lowerStartsWith (c :: rest) "-bold".data then stripVariantFuel fuel (rest.drop 4)
    else if lowerStartsWith (c :: rest) "-oblique".data then stripVariantFuel fuel (rest.drop 7)
    else if lowerStartsWith (c :: rest) "-italic".data then stripVariantFuel fuel (rest.drop 6)
    else c :: stripVariantFuel fuel rest

/-- Suffix stripping of the combination-path resolver.  Every step of
`stripVariantFuel` consumes at least one character, so passing the string
length as fuel makes the scan total without changing its behavior. -/
def stripVariantSuffixes (fontFamily : String) : String :=
  ⟨stripVariantFuel fontFamily.data.length fontFamily.data⟩

/-- Combination-path font resolution (pdfService.ts 508-532 and 612-636): strip
the variant suffixes from the hint, then select the variant from the *explicit*
flags only. -/
def resolveFontCombination (fontFamily : String) (bold italic : Bool) : StdFont :=
  pickFontByFamily (stripVariantSuffixes fontFamily) bold italic

/-! ## Data model (src/types.ts and the stored-JSON schema read by the engine) -/

/-- One stored field mapping.  The engine reads `x`, `y`, `size`, `align`,
`color`, `fontFamily`, `maxWidth`, `maxHeight`, `bold`, `italic`.  The
condition keys are part of the stored schema (spec §3) but are never read by
either generation path in `pdfService.ts`, and so are carried here unused. -/
structure FieldMapping where
  x : ℚ
  y : ℚ
  size : Option ℚ := none
  align : Option String := none
  color : Option String := none
  fontFamily : Option String := none
  maxWidth : Option ℚ := none
  maxHeight : Option ℚ := none
  bold : Option Bool := none
  italic : Option Bool := none
  conditionField : Option String := none
  conditionOperator : Option String := none
  conditionValue : Option String := none
deriving DecidableEq, Repr

/-- A mapping table: `Object.entries` iterates in insertion order. -/
abbrev MappingTable := List (String × FieldMapping)

/-- Runtime data `{ [fieldName]: stringValue }`. -/
abbrev RuntimeData := List (String × String)

/-- One `page.drawText` call, with its resolved arguments. -/
structure DrawTextOp where
  text : String
  x : ℚ
  y : ℚ
  size : ℚ
  font : StdFont
  color : Rgb
deriving DecidableEq, Repr

/-- Abstract width oracle for an embedded font: `font.widthOfTextAtSize`. -/
abbrev WidthFn := StdFont → String → ℚ → ℚ

/-- Horizontal placement of one line (pdfService.ts 195-199 / 215-218):
`center` and `right` offset the x coordinate inside `maxWidth`. -/
def alignX (x : ℚ) (align : String) (maxWidth lineWidth : ℚ) : ℚ :=
  if align = "center" then x + (maxWidth - lineWidth) / 2
  else if align = "right" then x + maxWidth - lineWidth
  else x

/-- The per-field style values already resolved before the line loop. -/
structure LineStyle where
  x : ℚ
  align : String
  maxWidth : ℚ
  pageHeight : ℚ
  baselineY : ℚ
  lineHeight : ℚ
  maxHeight : ℚ
  fontSize : ℚ
  font : StdFont
  color : Rgb

/-- The wrapped-line loop (pdfService.ts 182-210, duplicated at 542-562 and
646-666): walk the lines keeping `currentY`; `break` as soon as
`currentY - baselineY + lineHeight > maxHeight`, otherwise emit one
`drawText` at `y = pageHeight - currentY` and advance by `lineHeight`. -/
def renderWrappedLines (widthLine : String → ℚ) (st : LineStyle) :
    List String → ℚ → List DrawTextOp
  | [], _ => []
  | line :: rest, currentY =>
    if currentY - st.baselineY + st.lineHeight > st.maxHeight then []
    else
      let lineWidth := widthLine line
      { text := line
        x := alignX st.x st.align st.maxWidth lineWidth
        y := st.pageHeight - currentY
        size := st.fontSize
        font := st.font
        color := st.color } ::
      renderWrappedLines widthLine st rest (currentY + st.lineHeight)

/-- The body shared verbatim by both generation paths (pdfService.ts 125-228,
503-577, 607-681), parameterized by the path's font resolver: resolve style
defaults, measure the whole value, and either emit a single `drawText` at the
baseline or wrap and emit one call per surviving line. -/
def renderFieldWith (resolve : String → Bool → Bool → StdFont) (widthOf : WidthFn)
    (pageHeight : ℚ) (fm : FieldMapping) (textValue : String) : List DrawTextOp :=
  let fontSize := qOr fm.size 12
  let align := sOr fm.align "left"
  let maxWidth := qOr fm.maxWidth 200
  let colorRgb := hexToRgb (sOr fm.color "#000000")
  let font := resolve (sOr fm.fontFamily "Helvetica") (bOr fm.bold) (bOr fm.italic)
  let maxHeight := qOr fm.maxHeight 1000
  let lineHeight := fontSize + 2
  let textWidth := widthOf font textValue fontSize
  let baselineY := fm.y + fontSize
  if textWidth > maxWidth then
    renderWrappedLines (fun line => widthOf font line fontSize)
      { x := fm.x, align := align, maxWidth := maxWidth, pageHeight := pageHeight
        baselineY := baselineY, lineHeight := lineHeight, maxHeight := maxHeight
        fontSize := fontSize, font := font, color := colorRgb }
      (wrapText textValue (widthOf font) fontSize maxWidth) baselineY
  else
    [{ text := textValue
       x := alignX fm.x align maxWidth textWidth
       y := pageHeight - baselineY
       size := fontSize
       font := font
       color := colorRgb }]

/-- One field on the legacy path (pdfService.ts 118-228): skip only when the
value is `undefined`/`null`; any present string (including `""`) is rendered. -/
def renderFieldLegacy (widthOf : WidthFn) (pageHeight : ℚ) (fm : FieldMapping)
    (value : Option String) : List DrawTextOp :=
  match value with
  | none => []
  | some textValue => renderFieldWith resolveFontLegacy widthOf pageHeight fm textValue

/-- One field on the combination path (pdfService.ts 499-577 and 603-681):
`if (!textValue) continue` skips both a missing value and the empty string. -/
def renderFieldCombination (widthOf : WidthFn) (pageHeight : ℚ) (fm : FieldMapping)
    (value : Option String) : List DrawTextOp :=
  let textValue := value.getD ""
  if textValue = "" then []
  else renderFieldWith resolveFontCombination widthOf pageHeight fm textValue

/-! ## Filenames and storage keys -/

/-- The error taxonomy of the service: each constructor stands for one family
of `throw new Error(...)` sites in `pdfService.ts`. -/
inductive GenError
  | invalidFilename (filename : String)
  | templateNotFound (name : String)
  | mappingNotFound (name : String)
  | combinationNotFound (name : String)
  | drawingNotFound (name : String)
  | renderFailure (name : String)
deriving DecidableEq, Repr

/-- Character class of the whitelist regex in `sanitizeFilename`
(pdfService.ts 31): alphanumeric, underscore, dash, dot, space. -/
def isAllowedFilenameChar (c : Char) : Bool :=
  ('a' ≤ c && c ≤ 'z') || ('A' ≤ c && c ≤ 'Z') || ('0' ≤ c && c ≤ '9') ||
    c = '_' || c = '-' || c = '.' || c = ' '

/-- `sanitizeFilename` (pdfService.ts 23-36).  The runtime builtins
`decodeURIComponent` and `path.basename` are modelled on the domain the engine
meets: a name without percent-escapes decodes to itself, and a name containing
a path separator fails the `basename !== decoded` comparison (a name with
percent-escapes would also be rejected here, by the whitelist, since `%` is
not an allowed character). -/
def sanitizeFilename (filename : String) : Except GenError String :=
  if filename.data.contains '/' || filename.data.contains '\\' ||
      includesStr filename ".." then
    .error (.invalidFilename filename)
  else if filename ≠ "" && filename.data.all isAllowedFilenameChar then
    .ok filename
  else .error (.invalidFilename filename)

/-- `l` ends (case-insensitively, pattern already lowercase) with `pat`. -/
def lowerEndsWith (l pat : List Char) : Bool :=
  decide (pat <:+ l.map Char.toLower)

/-- `validatePDFFilename` (pdfService.ts 38-46): sanitize, then require a
case-insensitive `.pdf` suffix. -/
def validatePDFFilename (filename : String) : Except GenError String :=
  match sanitizeFilename filename with
  | .error e => .error e
  | .ok sanitized =>
    if lowerEndsWith sanitized.data ".pdf".data then .ok sanitized
    else .error (.invalidFilename filename)

/-- JS `String.replace` with a plain-string pattern: replace the *first*
occurrence only (used for `sanitizedName.replace('.pdf', '.json')`). -/
def replaceFirst : List Char → List Char → List Char → List Char
  | [], _, _ => []
  | c :: rest, pat, rep =>
    if decide (pat <+: c :: rest) then rep ++ (c :: rest).drop pat.length
    else c :: replaceFirst rest pat rep

/-- The mapping key of a template (pdfService.ts 96-99):
`name.replace('.pdf', '.json')`. -/
def mappingKey (sanitizedName : String) : String :=
  ⟨replaceFirst sanitizedName.data ".pdf".data ".json".data⟩

/-- Node `path.extname` on the separator-free names the service stores: the
suffix starting at the last dot, empty when the only dot is the leading
character or there is no dot. -/
def afterLastDot : List Char → Option (List Char)
  | [] => none
  | c :: rest =>
    match afterLastDot rest with
    | some t => some t
    | none => if c = '.' then some (c :: rest) else none

/-- `path.extname` (see `afterLastDot`). -/
def extname (s : String) : String :=
  match s.data with
  | [] => ""
  | _ :: rest =>
    match afterLastDot rest with
    | some t => ⟨t⟩
    | none => ""

/-- The drawing-mapping key (pdfService.ts 389-392): replace a trailing
(case-insensitive) drawing extension with `.json`, else leave the name as is. -/
def drawingMappingKey (sanitizedName : String) : String :=
  let exts := [".pdf", ".png", ".jpg", ".jpeg", ".gif", ".bmp", ".svg"]
  match exts.find? (fun e => lowerEndsWith sanitizedName.data e.data) with
  | some e => ⟨sanitizedName.data.take (sanitizedName.data.length - e.length) ++ ".json".data⟩
  | none => sanitizedName

/-! ## The store -/

/-- A stored base template, abstracted to what the engine reads from the
parsed bytes: the size of page 0.  (Templates whose bytes fail to parse or
have no page are outside the scope of the verified claims.) -/
structure Template where
  width : ℚ
  height : ℚ
deriving DecidableEq, Repr

/-- Stored drawing bytes, abstracted to their parse result: a PDF with a page-0
size, a raster image with natural dimensions, or bytes of neither shape
(e.g. an SVG file, which pdf-lib cannot embed on this code path). -/
inductive DrawingBytes
  | pdf (pageWidth pageHeight : ℚ)
  | image (width height : ℚ)
  | otherBytes
deriving DecidableEq, Repr

/-- One `DrawingPlacement` of a stored combination. -/
structure DrawingPlacement where
  drawingName : String
  x : ℚ
  y : ℚ
  width : ℚ
  height : ℚ
  rotation : Option ℚ := none
  conditionField : Option String := none
  conditionOperator : Option String := none
  conditionValue : Option String := none
deriving DecidableEq, Repr

/-- A stored combination. -/
structure Combination where
  templateName : String
  drawingPlacements : List DrawingPlacement
deriving DecidableEq, Repr

/-- The immutable file stores the service reads, keyed exactly as on disk:
mapping files by their `.json` filename, combinations by their `.json`
filename. -/
structure Store where
  templates : List (String × Template) := []
  mappings : List (String × MappingTable) := []
  drawings : List (String × DrawingBytes) := []
  drawingMappings : List (String × MappingTable) := []
  combinations : List (String × Combination) := []

/-- Ambient request environment: the store plus the nondeterminism sources a
request could in principle observe (wall clock, randomness).  The wall clock
enters the output only through the metadata stamp pdf-lib's `load` performs;
the randomness source is never read — carrying both makes that provable. -/
structure World where
  now : Nat
  rngSeed : Nat
  store : Store

/-! ## Emitted page operations and the generated document -/

/-- Contained aspect-fit result (the block duplicated at pdfService.ts 687-703
and 721-737). -/
structure FitResult where
  finalWidth : ℚ
  finalHeight : ℚ
  offsetX : ℚ
  offsetY : ℚ
deriving DecidableEq, Repr

/-- The contained-fit computation (pdfService.ts 687-703 / 721-737): keep the
placement rectangle, then shrink one dimension to the drawing's aspect ratio
and center along it. -/
def containedFit (drawingWidth drawingHeight placementWidth placementHeight : ℚ) :
    FitResult :=
  let drawingAspectRatio := drawingWidth / drawingHeight
  let placementAspectRatio := placementWidth / placementHeight
  if drawingAspectRatio > placementAspectRatio then
    { finalWidth := placementWidth
      finalHeight := placementWidth / drawingAspectRatio
      offsetX := 0
      offsetY := (placementHeight - placementWidth / drawingAspectRatio) / 2 }
  else
    { finalWidth := placementHeight * drawingAspectRatio
      finalHeight := placementHeight
      offsetX := (placementWidth - placementHeight * drawingAspectRatio) / 2
      offsetY := 0 }

/-- One draw operation on the base page: overlay text, an embedded PDF page
(carrying the text already drawn into the sub-document), or a raster image. -/
inductive PageOp
  | text (op : DrawTextOp)
  | embedPdfPage (drawingName : String) (subOps : List DrawTextOp)
      (x y width height rotation : ℚ)
  | drawImage (drawingName : String) (x y width height rotation : ℚ)
deriving DecidableEq, Repr

/-- The producer/creator string pdf-lib writes into the info dictionary of
every document it touches. -/
def pdfLibProducer : String := "pdf-lib (https://pdf-lib.js.org)"

/-- The info-dictionary metadata pdf-lib maintains.  `PDFDocument.load` is
called with its defaults (pdfService.ts 112 and 493), and the default
`updateMetadata: true` stamps the producer string and *the wall clock at load
time* (`new Date()`) into the document's ModificationDate; `save()`
serializes this dictionary along with the page content. -/
structure DocMetadata where
  producer : String
  modificationDate : Nat
deriving DecidableEq, Repr

/-- The generated document: the base template, the ordered draw operations
applied to its first page, and the info-dictionary metadata stamped at load
time.  The returned bytes are a pure serialization of this state. -/
structure GeneratedDoc where
  template : Template
  ops : List PageOp
  metadata : DocMetadata
deriving DecidableEq, Repr

/-! ## Legacy entry point: `generatePDF` (pdfService.ts 93-233) -/

/-- `generatePDF(templateName, data)`: validate the name, require the template
and its mapping table, then render every mapped field with the legacy field
renderer.  `PDFDocument.load(templateBytes)` at line 112 runs with pdf-lib's
default `updateMetadata: true`, stamping the `World`'s clock into the output
metadata; the `World`'s randomness source is in scope and provably unused. -/
def generatePDF (w : World) (templateName : String) (data : RuntimeData)
    (widthOf : WidthFn) : Except GenError GeneratedDoc :=
  match validatePDFFilename templateName with
  | .error e => .error e
  | .ok sanitizedName =>
    match List.lookup sanitizedName w.store.templates with
    | none => .error (.templateNotFound templateName)
    | some template =>
      match List.lookup (mappingKey sanitizedName) w.store.mappings with
      | none => .error (.mappingNotFound templateName)
      | some mapping =>
        let ops := mapping.flatMap (fun entry =>
          renderFieldLegacy widthOf template.height entry.2 (List.lookup entry.1 data))
        .ok { template := template, ops := ops.map PageOp.text
              metadata := { producer := pdfLibProducer, modificationDate := w.now } }

/-! ## Combination entry point: `generateWithCombination` (pdfService.ts 481-752) -/

/-- `getTemplate` (pdfService.ts 277-286). -/
def getTemplateE (store : Store) (templateName : String) : Except GenError Template :=
  match validatePDFFilename templateName with
  | .error e => .error e
  | .ok sanitizedName =>
    match List.lookup sanitizedName store.templates with
    | none => .error (.templateNotFound templateName)
    | some t => .ok t

/-- `getMapping` (pdfService.ts 253-265): `null` when the mapping file is
absent — never a NotFound failure. -/
def getMappingE (store : Store) (templateName : String) :
    Except GenError (Option MappingTable) :=
  match validatePDFFilename templateName with
  | .error e => .error e
  | .ok sanitizedName => .ok (List.lookup (mappingKey sanitizedName) store.mappings)

/-- `getDrawing` (pdfService.ts 337-362): loading the bytes fails when the
file is absent. -/
def getDrawingE (store : Store) (drawingName : String) : Except GenError DrawingBytes :=
  match sanitizeFilename drawingName with
  | .error e => .error e
  | .ok sanitizedName =>
    match List.lookup sanitizedName store.drawings with
    | none => .error (.drawingNotFound drawingName)
    | some d => .ok d

/-- `getDrawingMapping` (pdfService.ts 387-399): `null` when absent. -/
def getDrawingMappingE (store : Store) (drawingName : String) :
    Except GenError (Option MappingTable) :=
  match sanitizeFilename drawingName with
  | .error e => .error e
  | .ok sanitizedName =>
    .ok (List.lookup (drawingMappingKey sanitizedName) store.drawingMappings)

/-- The placement-level condition guard (pdfService.ts 582-587): active only
when `conditionField` and `conditionValue` are both truthy, and then the
placement is skipped iff the *base* runtime data's value differs from
`conditionValue` — `conditionOperator` is never consulted. -/
def placementCondFails (templateData : RuntimeData) (p : DrawingPlacement) : Bool :=
  match truthy p.conditionField, truthy p.conditionValue with
  | some f, some v => decide (List.lookup f templateData ≠ some v)
  | _, _ => false

/-- The body of the placement loop (pdfService.ts 581-748) for one placement:
evaluate the condition, load bytes and mapping, then dispatch on the filename
extension — `.pdf` renders the sub-document's own fields and embeds its first
page, `.png`/`.jpg`/`.jpeg` embed the raster image, and any other extension
falls through both branches and emits nothing. -/
def processPlacement (store : Store) (templateHeight : ℚ) (templateData : RuntimeData)
    (drawingsData : List (String × RuntimeData)) (widthOf : WidthFn)
    (p : DrawingPlacement) : Except GenError (List PageOp) :=
  if placementCondFails templateData p then .ok []
  else
    match getDrawingE store p.drawingName with
    | .error e => .error e
    | .ok drawingBuffer =>
      match getDrawingMappingE store p.drawingName with
      | .error e => .error e
      | .ok drawingMapping =>
        let drawingData := (List.lookup p.drawingName drawingsData).getD []
        let drawingExt := jsToLowerCase (extname p.drawingName)
        if drawingExt = ".pdf" then
          match drawingBuffer with
          | .pdf drawingWidth drawingHeight =>
            let subOps := match drawingMapping with
              | some dm => dm.flatMap (fun entry =>
                  renderFieldCombination widthOf drawingHeight entry.2
                    (List.lookup entry.1 drawingData))
              | none => []
            let fit := containedFit drawingWidth drawingHeight p.width p.height
            let rotation := qOr p.rotation 0
            .ok [PageOp.embedPdfPage p.drawingName subOps
              (p.x + fit.offsetX)
              (templateHeight - p.y - p.height + fit.offsetY)
              fit.finalWidth fit.finalHeight rotation]
          | _ => .error (.renderFailure p.drawingName)
        else if drawingExt = ".png" || drawingExt = ".jpg" || drawingExt = ".jpeg" then
          match drawingBuffer with
          | .image imageWidth imageHeight =>
            let fit := containedFit imageWidth imageHeight p.width p.height
            let rotation := qOr p.rotation 0
            .ok [PageOp.drawImage p.drawingName
              (p.x + fit.offsetX)
              (templateHeight - p.y - p.height + fit.offsetY)
              fit.finalWidth fit.finalHeight rotation]
          | _ => .error (.renderFailure p.drawingName)
        else .ok []

/-- Process the placements in declaration order, aborting on the first
failure. -/
def processPlacements (store : Store) (templateHeight : ℚ) (templateData : RuntimeData)
    (drawingsData : List (String × RuntimeData)) (widthOf : WidthFn) :
    List DrawingPlacement → Except GenError (List PageOp)
  | [] => .ok []
  | p :: rest =>
    match processPlacement store templateHeight templateData drawingsData widthOf p with
    | .error e => .error e
    | .ok ops =>
      match processPlacements store templateHeight templateData drawingsData widthOf rest with
      | .error e => .error e
      | .ok restOps => .ok (ops ++ restOps)

/-- `generateWithCombination(combinationName, templateData, drawingsData)`
(pdfService.ts 481-752): load the combination and its base template; a missing
base mapping table is tolerated as "no fields to render"; then run the
placement loop and return the composed document. -/
def generateWithCombination (w : World) (combinationName : String)
    (templateData : RuntimeData) (drawingsData : List (String × RuntimeData))
    (widthOf : WidthFn) : Except GenError GeneratedDoc :=
  match sanitizeFilename (combinationName ++ ".json") with
  | .error e => .error e
  | .ok sanitizedName =>
    match List.lookup sanitizedName w.store.combinations with
    | none => .error (.combinationNotFound combinationName)
    | some combination =>
      match getTemplateE w.store combination.templateName with
      | .error e => .error e
      | .ok template =>
        match getMappingE w.store combination.templateName with
        | .error e => .error e
        | .ok templateMapping =>
          let baseOps := match templateMapping with
            | some mapping => mapping.flatMap (fun entry =>
                renderFieldCombination widthOf template.height entry.2
                  (List.lookup entry.1 templateData))
            | none => []
          match processPlacements w.store template.height templateData drawingsData
              widthOf combination.drawingPlacements with
          | .error e => .error e
          | .ok placementOps =>
            .ok { template := template
                  ops := baseOps.map PageOp.text ++ placementOps
                  metadata := { producer := pdfLibProducer, modificationDate := w.now } }

/-! ## Concrete fixtures

pdf-lib's text metrics are external to the repository; every verified claim
holds for an arbitrary width oracle, and concrete instances use the simplest
monotone one: every character one point wide. -/

def widthByLength : WidthFn := fun _ s _ => (s.length : ℚ)

/-- A field carrying a condition (`status equals done`), at the spec's
end-to-end-scenario coordinates. -/
def condFieldMapping : FieldMapping :=
  { x := 50, y := 50, size := some 12, maxWidth := some 150,
    conditionField := some "status", conditionOperator := some "equals",
    conditionValue := some "done" }

/-- A raster placement carrying a `not_equals` condition on `status = done`. -/
def pngPlacement : DrawingPlacement :=
  { drawingName := "p.png", x := 10, y := 10, width := 100, height := 100,
    conditionField := some "status", conditionOperator := some "not_equals",
    conditionValue := some "done" }

/-- An SVG placement (extension outside the two handled branches). -/
def svgPlacement : DrawingPlacement :=
  { drawingName := "d.svg", x := 0, y := 0, width := 50, height := 50 }

/-- A fixture store: `t.pdf` has a mapping with the conditioned field `name`,
`t2.pdf` has no mapping; one 400×200 PNG drawing, one SVG drawing; three
combinations exercising the placement loop. -/
def fixtureStore : Store :=
  { templates := [("t.pdf", { width := 595, height := 800 }),
                  ("t2.pdf", { width := 595, height := 800 })]
    mappings := [("t.json", [("name", condFieldMapping)])]
    drawings := [("d.svg", DrawingBytes.otherBytes), ("p.png", DrawingBytes.image 400 200)]
    combinations := [("c.json", { templateName := "t.pdf", drawingPlacements := [pngPlacement] }),
                     ("cm.json", { templateName := "t2.pdf", drawingPlacements := [] }),
                     ("csvg.json", { templateName := "t2.pdf", drawingPlacements := [svgPlacement] })] }

/-! ## C5 — contained aspect-fit -/

/-- C5: for a sub-document of natural size `w × h` placed into a `pw × ph`
rectangle, when `w/h > pw/ph` the fitted height is `pw / (w/h)` with
`offsetY = (ph - fittedHeight)/2` and the width unchanged; otherwise the
fitted width is `ph * (w/h)` with `offsetX = (pw - fittedWidth)/2`; and the
fitted rectangle always has the drawing's aspect ratio (never stretched). -/
theorem contained_fit_correct (w h pw ph : ℚ) (hw : 0 < w) (hh : 0 < h)
    (hpw : 0 < pw) (hph : 0 < ph) :
    (containedFit w h pw ph).finalWidth / (containedFit w h pw ph).finalHeight = w / h ∧
    (w / h > pw / ph →
      (containedFit w h pw ph).finalHeight = pw / (w / h) ∧
      (containedFit w h pw ph).offsetY =
        (ph - (containedFit w h pw ph).finalHeight) / 2 ∧
      (containedFit w h pw ph).finalWidth = pw ∧
      (containedFit w h pw ph).offsetX = 0) ∧
    (¬ w / h > pw / ph →
      (containedFit w h pw ph).finalWidth = ph * (w / h) ∧
      (containedFit w h pw ph).offsetX =
        (pw - (containedFit w h pw ph).finalWidth) / 2 ∧
      (containedFit w h pw ph).finalHeight = ph ∧
      (containedFit w h pw ph).offsetY = 0) := by
  have hwh : 0 < w / h := div_pos hw hh
  unfold containedFit
  by_cases hc : w / h > pw / ph
  · rw [if_pos hc]
    refine ⟨?_, fun _ => ⟨rfl, rfl, rfl, rfl⟩, fun hn => absurd hc hn⟩
    show pw / (pw / (w / h)) = w / h
    rw [div_div_eq_mul_div, mul_comm, mul_div_assoc, div_self hpw.ne', mul_one]
  · rw [if_neg hc]
    refine ⟨?_, fun hgt => absurd hgt hc, fun _ => ⟨rfl, rfl, rfl, rfl⟩⟩
    show ph * (w / h) / ph = w / h
    rw [mul_comm, mul_div_assoc, div_self hph.ne', mul_one]

/-- C5 witness: the spec's concrete instance — a 400×200 drawing in a 100×100
rectangle fits to 100×50, vertically centered at `offsetY = 25`. -/
theorem contained_fit_correct_witness :
    (containedFit 400 200 100 100).finalHeight = 50 ∧
    (containedFit 400 200 100 100).offsetY = 25 ∧
    (containedFit 400 200 100 100).finalWidth = 100 ∧
    (containedFit 400 200 100 100).finalWidth /
      (containedFit 400 200 100 100).finalHeight = 400 / 200 := by
  have h := contained_fit_correct 400 200 100 100 (by norm_num) (by norm_num)
    (by norm_num) (by norm_num)
  have hgt : (400 : ℚ) / 200 > 100 / 100 := by norm_num
  obtain ⟨hr, hcase, -⟩ := h
  obtain ⟨h1, h2, h3, -⟩ := hcase hgt
  have hfh : (containedFit 400 200 100 100).finalHeight = 50 := by rw [h1]; norm_num
  refine ⟨hfh, ?_, h3, by rw [hr]⟩
  rw [h2, hfh]; norm_num

/-! ## C2 — font resolution -/

/-- C2 counterexample: on the combination path the suffix of
`"Helvetica-Bold"` is stripped but its implied bold flag is discarded, so with
explicit flags off the resolver yields plain Helvetica — while the legacy path
yields Helvetica-Bold for the same input, as the claim demands of both
paths. -/
theorem font_resolution_cex :
    resolveFontCombination "Helvetica-Bold" false false = StdFont.Helvetica ∧
    resolveFontLegacy "Helvetica-Bold" false false = StdFont.HelveticaBold ∧
    StdFont.Helvetica ≠ StdFont.HelveticaBold :=
  ⟨rfl, rfl, by decide⟩

/-- C2 (amended): resolution is total into the 12 concrete fonts on both
paths, with unknown hints falling back to Helvetica-regular; the *legacy* path
ORs the suffix-implied flags into the explicit ones (`Italic` recognized for
Times, `Oblique` otherwise), but the *combination* path selects the variant
from the explicit flags alone — with both flags off it never produces a
bold or italic font, whatever the hint carries. -/
theorem font_resolution_amended :
    (∀ (fam : String) (b i : Bool),
      resolveFontLegacy fam b i =
        resolveFontLegacy fam (b || includesStr fam "Bold")
          (i || includesStr fam
            (if includesStr fam "Times" then "Italic" else "Oblique"))) ∧
    (∀ fam : String,
      resolveFontCombination fam false false = StdFont.Helvetica ∨
      resolveFontCombination fam false false = StdFont.TimesRoman ∨
      resolveFontCombination fam false false = StdFont.Courier) ∧
    resolveFontLegacy "Futura" false false = StdFont.Helvetica ∧
    resolveFontCombination "Futura" false false = StdFont.Helvetica := by
  refine ⟨?_, ?_, rfl, rfl⟩
  · intro fam b i
    unfold resolveFontLegacy
    by_cases hT : includesStr fam "Times"
    · simp [hT, Bool.or_assoc, Bool.or_self]
    · by_cases hC : includesStr fam "Courier" <;>
        simp [hT, hC, Bool.or_assoc, Bool.or_self]
  · intro fam
    unfold resolveFontCombination pickFontByFamily
    split_ifs <;> simp_all

/-! ## C9 — determinism -/

/-- C9 counterexample: `PDFDocument.load(templateBytes)` (pdfService.ts 112)
runs with pdf-lib's default `updateMetadata: true`, which stamps the current
wall clock (`new Date()`) into the document's ModificationDate, and `save()`
(line 231) serializes it — so a timestamp *does* enter the generated PDF: two
calls with an identical store and identical arguments but made at different
times produce different output. -/
theorem generate_deterministic_cex :
    (generatePDF ⟨0, 0, fixtureStore⟩ "t.pdf" [("name", "X")] widthByLength).map
      (fun d => d.metadata.modificationDate) = .ok 0 ∧
    (generatePDF ⟨1, 0, fixtureStore⟩ "t.pdf" [("name", "X")] widthByLength).map
      (fun d => d.metadata.modificationDate) = .ok 1 ∧
    generatePDF ⟨0, 0, fixtureStore⟩ "t.pdf" [("name", "X")] widthByLength ≠
      generatePDF ⟨1, 0, fixtureStore⟩ "t.pdf" [("name", "X")] widthByLength := by
  refine ⟨rfl, rfl, fun h => ?_⟩
  have h2 : (Except.ok 0 : Except GenError ℕ) = Except.ok 1 := by
    calc (Except.ok 0 : Except GenError ℕ)
        = (generatePDF ⟨0, 0, fixtureStore⟩ "t.pdf" [("name", "X")] widthByLength).map
            (fun d => d.metadata.modificationDate) := rfl
      _ = (generatePDF ⟨1, 0, fixtureStore⟩ "t.pdf" [("name", "X")] widthByLength).map
            (fun d => d.metadata.modificationDate) := by rw [h]
      _ = Except.ok 1 := rfl
  injection h2 with h3
  exact absurd h3 (by decide)

/-- C9 (amended): the repository's code introduces no randomness and no
nondeterministic ordering, and the wall clock enters the output only through
the ModificationDate that pdf-lib's `load` stamps at request time: two runs
agreeing on the store and the clock (whatever their randomness) produce
identical output, and two runs agreeing on the store alone already produce
identical templates and identical draw operations — the serialized bytes can
differ only in that metadata timestamp. -/
theorem generate_deterministic_amended :
    (∀ (w₁ w₂ : World) (templateName : String) (data : RuntimeData) (widthOf : WidthFn),
      w₁.store = w₂.store → w₁.now = w₂.now →
      generatePDF w₁ templateName data widthOf =
        generatePDF w₂ templateName data widthOf) ∧
    (∀ (w₁ w₂ : World) (templateName : String) (data : RuntimeData) (widthOf : WidthFn),
      w₁.store = w₂.store →
      (generatePDF w₁ templateName data widthOf).map (fun d => (d.template, d.ops)) =
        (generatePDF w₂ templateName data widthOf).map (fun d => (d.template, d.ops))) := by
  constructor
  · intro w₁ w₂ templateName data widthOf hs hn
    unfold generatePDF
    rw [hs, hn]
  · intro w₁ w₂ templateName data widthOf hs
    unfold generatePDF
    rw [hs]
    split
    · rfl
    · split
      · rfl
      · split
        · rfl
        · rfl

/-- C9 witness: equal store and clock but different random seeds give equal
output; equal store but different clocks still give equal template and draw
operations. -/
theorem generate_deterministic_witness :
    generatePDF ⟨20251011, 42, fixtureStore⟩ "t.pdf" [("name", "X")] widthByLength =
      generatePDF ⟨20251011, 7, fixtureStore⟩ "t.pdf" [("name", "X")] widthByLength ∧
    (generatePDF ⟨5, 0, fixtureStore⟩ "t.pdf" [("name", "X")] widthByLength).map
        (fun d => (d.template, d.ops)) =
      (generatePDF ⟨99, 0, fixtureStore⟩ "t.pdf" [("name", "X")] widthByLength).map
        (fun d => (d.template, d.ops)) :=
  ⟨generate_deterministic_amended.1 _ _ _ _ _ rfl rfl,
   generate_deterministic_amended.2 _ _ _ _ _ rfl⟩

/-! ## C7 — missing-value skip -/

/-- C7 counterexample: the empty string is *present* in the runtime data, yet
the combination path's `if (!textValue) continue` skips it entirely, while the
legacy path renders it — refuting "on both generation paths ... a value that
is present, including the empty string, ... still goes through rendering". -/
theorem missing_value_skip_cex :
    renderFieldCombination widthByLength 800 { x := 0, y := 0 } (some "") = [] ∧
    (renderFieldLegacy widthByLength 800 { x := 0, y := 0 } (some "")).length = 1 :=
  ⟨rfl, rfl⟩

/-- C7 (amended): an absent value is skipped on both paths; the legacy path
treats every present string (the empty string included) as renderable, but the
combination path additionally skips the empty string; a present (and, on the
combination path, nonempty) value whose measured width fits `maxWidth` emits
exactly one draw operation. -/
theorem missing_value_skip_amended :
    (∀ (widthOf : WidthFn) (pageHeight : ℚ) (fm : FieldMapping),
      renderFieldLegacy widthOf pageHeight fm none = [] ∧
      renderFieldCombination widthOf pageHeight fm none = [] ∧
      renderFieldCombination widthOf pageHeight fm (some "") = []) ∧
    (∀ (widthOf : WidthFn) (pageHeight : ℚ) (fm : FieldMapping) (v : String),
      widthOf (resolveFontLegacy (sOr fm.fontFamily "Helvetica") (bOr fm.bold) (bOr fm.italic))
          v (qOr fm.size 12) ≤ qOr fm.maxWidth 200 →
      (renderFieldLegacy widthOf pageHeight fm (some v)).length = 1) ∧
    (∀ (widthOf : WidthFn) (pageHeight : ℚ) (fm : FieldMapping) (v : String),
      v ≠ "" →
      widthOf (resolveFontCombination (sOr fm.fontFamily "Helvetica") (bOr fm.bold) (bOr fm.italic))
          v (qOr fm.size 12) ≤ qOr fm.maxWidth 200 →
      (renderFieldCombination widthOf pageHeight fm (some v)).length = 1) := by
  refine ⟨fun W pH fm => ⟨rfl, rfl, rfl⟩, ?_, ?_⟩
  · intro W pH fm v hfit
    simp only [renderFieldLegacy, renderFieldWith]
    rw [if_neg (not_lt.mpr hfit)]
    rfl
  · intro W pH fm v hv hfit
    simp only [renderFieldCombination, Option.getD]
    rw [if_neg hv]
    simp only [renderFieldWith]
    rw [if_neg (not_lt.mpr hfit)]
    rfl

/-- C7 witness: the legacy path renders a present empty string; the
combination path renders a present nonempty fitting value. -/
theorem missing_value_skip_witness :
    (renderFieldLegacy widthByLength 800 { x := 0, y := 0 } (some "")).length = 1 ∧
    (renderFieldCombination widthByLength 800 { x := 0, y := 0 } (some "hi")).length = 1 := by
  constructor
  · refine missing_value_skip_amended.2.1 widthByLength 800 _ "" ?_
    simp only [widthByLength, qOr, String.length_empty]
    norm_num
  · refine missing_value_skip_amended.2.2 widthByLength 800 _ "hi" (by decide) ?_
    have h2 : ("hi").length = 2 := rfl
    simp only [widthByLength, qOr, h2]
    norm_num

/-! ## C1 — conditional suppression -/

/-- C1 counterexample: a field whose condition (`status equals done`) fails
(`status = "pending"`) is still rendered by `generatePDF` (field-level
conditions are never evaluated); and a placement with operator `not_equals`
renders exactly when the values are *equal* (operator ignored): with
`status = "done"` the placement is drawn, with `status = "other"` it is
skipped — both the opposite of the claimed `not_equals` semantics. -/
theorem conditional_suppression_cex :
    (generatePDF ⟨0, 0, fixtureStore⟩ "t.pdf" [("name", "X"), ("status", "pending")]
        widthByLength).map (fun d => d.ops.length) = .ok 1 ∧
    (generateWithCombination ⟨0, 0, fixtureStore⟩ "c" [("status", "done")] []
        widthByLength).map (fun d => d.ops.length) = .ok 1 ∧
    (generateWithCombination ⟨0, 0, fixtureStore⟩ "c" [("status", "other")] []
        widthByLength).map (fun d => d.ops.length) = .ok 0 :=
  ⟨rfl, rfl, rfl⟩

/-- C1 (amended): field-level conditions are dead data — both field renderers
are invariant under arbitrary changes of a mapping's condition keys; placement
conditions ignore `conditionOperator` entirely, and when `conditionField` and
`conditionValue` are both truthy the placement is skipped exactly when the
*base* runtime data's value at `conditionField` differs from `conditionValue`
(fixed equality semantics). -/
theorem conditional_suppression_amended :
    (∀ (widthOf : WidthFn) (pageHeight : ℚ) (fm : FieldMapping) (v : Option String)
        (cf co cv : Option String),
      renderFieldLegacy widthOf pageHeight
          { fm with conditionField := cf, conditionOperator := co, conditionValue := cv } v =
        renderFieldLegacy widthOf pageHeight fm v ∧
      renderFieldCombination widthOf pageHeight
          { fm with conditionField := cf, conditionOperator := co, conditionValue := cv } v =
        renderFieldCombination widthOf pageHeight fm v) ∧
    (∀ (td : RuntimeData) (p : DrawingPlacement) (op : Option String),
      placementCondFails td { p with conditionOperator := op } = placementCondFails td p) ∧
    (∀ (td : RuntimeData) (p : DrawingPlacement) (f v : String),
      truthy p.conditionField = some f → truthy p.conditionValue = some v →
      (placementCondFails td p = true ↔ List.lookup f td ≠ some v)) := by
  refine ⟨fun W pH fm v cf co cv => ⟨rfl, rfl⟩, fun td p op => rfl, ?_⟩
  intro td p f v hf hv
  unfold placementCondFails
  rw [hf, hv]
  simp

/-- C1 witness: the `not_equals` placement of the fixture is skipped when the
base data's `status` differs from its `conditionValue`. -/
theorem conditional_suppression_witness :
    placementCondFails [("status", "other")] pngPlacement = true :=
  (conditional_suppression_amended.2.2 [("status", "other")] pngPlacement "status" "done"
    rfl rfl).mpr (by decide)

/-! ## C10 — unhandled drawing extensions -/

/-- C10: when a placement's drawing has an extension other than
`.pdf`/`.png`/`.jpg`/`.jpeg`, the loop body still loads the drawing's bytes
and mapping (absence of the bytes is a hard error) but falls through both
embed branches: no operation is emitted and no error raised; concretely, a
combination whose only placement is an SVG drawing composes to a document with
no draw operations at all. -/
theorem unsupported_extension_skipped :
    (∀ (store : Store) (th : ℚ) (td : RuntimeData) (dd : List (String × RuntimeData))
        (widthOf : WidthFn) (p : DrawingPlacement) (bytes : DrawingBytes),
      placementCondFails td p = false →
      sanitizeFilename p.drawingName = .ok p.drawingName →
      List.lookup p.drawingName store.drawings = some bytes →
      jsToLowerCase (extname p.drawingName) ≠ ".pdf" →
      jsToLowerCase (extname p.drawingName) ≠ ".png" →
      jsToLowerCase (extname p.drawingName) ≠ ".jpg" →
      jsToLowerCase (extname p.drawingName) ≠ ".jpeg" →
      processPlacement store th td dd widthOf p = .ok []) ∧
    (∀ (store : Store) (th : ℚ) (td : RuntimeData) (dd : List (String × RuntimeData))
        (widthOf : WidthFn) (p : DrawingPlacement),
      placementCondFails td p = false →
      sanitizeFilename p.drawingName = .ok p.drawingName →
      List.lookup p.drawingName store.drawings = none →
      processPlacement store th td dd widthOf p = .error (.drawingNotFound p.drawingName)) ∧
    generateWithCombination ⟨0, 0, fixtureStore⟩ "csvg" [] [] widthByLength =
      .ok { template := { width := 595, height := 800 }, ops := []
            metadata := { producer := pdfLibProducer, modificationDate := 0 } } := by
  refine ⟨?_, ?_, rfl⟩
  · intro store th td dd W p bytes hcond hsan hlook hpdf hpng hjpg hjpeg
    simp only [processPlacement, getDrawingE, getDrawingMappingE, hcond, hsan, hlook]
    simp [hpdf, hpng, hjpg, hjpeg]
  · intro store th td dd W p hcond hsan hlook
    simp only [processPlacement, getDrawingE, hcond, hsan, hlook]
    simp

/-- C10 witness: the fixture's SVG placement step emits nothing and does not
fail; with the drawing deleted from the store, the same step fails loading the
bytes. -/
theorem unsupported_extension_skipped_witness :
    processPlacement fixtureStore 800 [] [] widthByLength svgPlacement = .ok [] ∧
    processPlacement { fixtureStore with drawings := [] } 800 [] [] widthByLength svgPlacement =
      .error (.drawingNotFound "d.svg") := by
  constructor
  · exact unsupported_extension_skipped.1 fixtureStore 800 [] [] widthByLength svgPlacement
      DrawingBytes.otherBytes rfl rfl rfl (by decide) (by decide) (by decide) (by decide)
  · exact unsupported_extension_skipped.2.1 _ 800 [] [] widthByLength svgPlacement rfl rfl rfl

/-! ## C8 — mapping-absence semantics

The combination path can fail for many reasons (bad names, missing templates,
missing drawings, unparseable bytes) but never because a mapping table is
absent; the following shape lemmas track every error source through the
definitions. -/

theorem sanitizeFilename_no_mnf (n m : String) :
    sanitizeFilename n ≠ .error (.mappingNotFound m) := by
  unfold sanitizeFilename
  split_ifs <;> simp

theorem validatePDFFilename_no_mnf (n m : String) :
    validatePDFFilename n ≠ .error (.mappingNotFound m) := by
  unfold validatePDFFilename
  split
  · next e heq =>
    intro hc
    injection hc with h1
    subst h1
    exact sanitizeFilename_no_mnf n m heq
  · split_ifs <;> simp

theorem getTemplateE_no_mnf (store : Store) (n m : String) :
    getTemplateE store n ≠ .error (.mappingNotFound m) := by
  unfold getTemplateE
  split
  · next e heq =>
    intro hc
    injection hc with h1
    subst h1
    exact validatePDFFilename_no_mnf n m heq
  · split <;> simp

theorem getMappingE_no_mnf (store : Store) (n m : String) :
    getMappingE store n ≠ .error (.mappingNotFound m) := by
  unfold getMappingE
  split
  · next e heq =>
    intro hc
    injection hc with h1
    subst h1
    exact validatePDFFilename_no_mnf n m heq
  · simp

theorem getDrawingE_no_mnf (store : Store) (n m : String) :
    getDrawingE store n ≠ .error (.mappingNotFound m) := by
  unfold getDrawingE
  split
  · next e heq =>
    intro hc
    injection hc with h1
    subst h1
    exact sanitizeFilename_no_mnf n m heq
  · split <;> simp

theorem getDrawingMappingE_no_mnf (store : Store) (n m : String) :
    getDrawingMappingE store n ≠ .error (.mappingNotFound m) := by
  unfold getDrawingMappingE
  split
  · next e heq =>
    intro hc
    injection hc with h1
    subst h1
    exact sanitizeFilename_no_mnf n m heq
  · simp

theorem processPlacement_no_mnf (store : Store) (th : ℚ) (td : RuntimeData)
    (dd : List (String × RuntimeData)) (W : WidthFn) (p : DrawingPlacement) (m : String) :
    processPlacement store th td dd W p ≠ .error (.mappingNotFound m) := by
  unfold processPlacement
  split
  · simp
  · split
    · next e heq =>
      intro hc
      injection hc with h1
      subst h1
      exact getDrawingE_no_mnf store p.drawingName m heq
    · split
      · next e heq =>
        intro hc
        injection hc with h1
        subst h1
        exact getDrawingMappingE_no_mnf store p.drawingName m heq
      · dsimp only
        split_ifs <;> (try split) <;> simp

theorem processPlacements_no_mnf (store : Store) (th : ℚ) (td : RuntimeData)
    (dd : List (String × RuntimeData)) (W : WidthFn) (m : String) :
    ∀ ps : List DrawingPlacement,
      processPlacements store th td dd W ps ≠ .error (.mappingNotFound m)
  | [] => by simp [processPlacements]
  | p :: rest => by
    unfold processPlacements
    split
    · next e heq =>
      intro hc
      injection hc with h1
      subst h1
      exact processPlacement_no_mnf store th td dd W p m heq
    · split
      · next e heq =>
        intro hc
        injection hc with h1
        subst h1
        exact processPlacements_no_mnf store th td dd W m rest heq
      · simp

/-- C8: missing-mapping semantics differ by path.  `generatePDF` fails with
the mapping-NotFound error as soon as the template exists but its mapping file
does not (it never returns a document); `generateWithCombination` treats a
missing base mapping as "no fields to render" and still returns a composed
document; and no run of `generateWithCombination` can ever fail with the
mapping-NotFound error. -/
theorem mapping_absence_semantics :
    (∀ (w : World) (name : String) (data : RuntimeData) (widthOf : WidthFn)
        (s : String) (t : Template),
      validatePDFFilename name = .ok s →
      List.lookup s w.store.templates = some t →
      List.lookup (mappingKey s) w.store.mappings = none →
      generatePDF w name data widthOf = .error (.mappingNotFound name)) ∧
    (∀ (w : World) (combName : String) (td : RuntimeData)
        (dd : List (String × RuntimeData)) (widthOf : WidthFn)
        (sname : String) (comb : Combination) (t : Template),
      sanitizeFilename (combName ++ ".json") = .ok sname →
      List.lookup sname w.store.combinations = some comb →
      getTemplateE w.store comb.templateName = .ok t →
      getMappingE w.store comb.templateName = .ok none →
      comb.drawingPlacements = [] →
      generateWithCombination w combName td dd widthOf =
        .ok { template := t, ops := []
              metadata := { producer := pdfLibProducer, modificationDate := w.now } }) ∧
    (∀ (w : World) (combName : String) (td : RuntimeData)
        (dd : List (String × RuntimeData)) (widthOf : WidthFn) (m : String),
      generateWithCombination w combName td dd widthOf ≠ .error (.mappingNotFound m)) := by
  refine ⟨?_, ?_, ?_⟩
  · intro w name data widthOf s t hval hlookT hlookM
    simp only [generatePDF, hval, hlookT, hlookM]
  · intro w combName td dd widthOf sname comb t hsan hlookC htemp hmap hplc
    simp only [generateWithCombination, hsan, hlookC, htemp, hmap, hplc, processPlacements]
    simp
  · intro w combName td dd widthOf m
    unfold generateWithCombination
    split
    · next e heq =>
      intro hc
      injection hc with h1
      subst h1
      exact sanitizeFilename_no_mnf (combName ++ ".json") m heq
    · split
      · simp
      · split
        · next e heq =>
          intro hc
          injection hc with h1
          subst h1
          exact getTemplateE_no_mnf w.store _ m heq
        · split
          · next e heq =>
            intro hc
            injection hc with h1
            subst h1
            exact getMappingE_no_mnf w.store _ m heq
          · dsimp only
            split
            · next e heq =>
              intro hc
              injection hc with h1
              subst h1
              exact processPlacements_no_mnf w.store _ td dd widthOf m _ heq
            · simp

/-- C8 witness: the fixture's `t2.pdf` exists without a mapping — the legacy
path fails with the mapping-NotFound error, while the combination `cm` (base
template `t2.pdf`, no placements) still generates a document. -/
theorem mapping_absence_semantics_witness :
    generatePDF ⟨0, 0, fixtureStore⟩ "t2.pdf" [("name", "X")] widthByLength =
      .error (.mappingNotFound "t2.pdf") ∧
    generateWithCombination ⟨0, 0, fixtureStore⟩ "cm" [] [] widthByLength =
      .ok { template := { width := 595, height := 800 }, ops := []
            metadata := { producer := pdfLibProducer, modificationDate := 0 } } := by
  constructor
  · exact mapping_absence_semantics.1 ⟨0, 0, fixtureStore⟩ "t2.pdf" [("name", "X")]
      widthByLength "t2.pdf" { width := 595, height := 800 } rfl rfl rfl
  · exact mapping_absence_semantics.2.1 ⟨0, 0, fixtureStore⟩ "cm" [] [] widthByLength
      "cm.json" { templateName := "t2.pdf", drawingPlacements := [] }
      { width := 595, height := 800 } rfl rfl rfl rfl rfl

/-! ## C6 — coordinate transform

The vertical position of every emitted line, on either path, through the
shared field-render body. -/

/-- The `i`-th surviving line of the wrapped-line loop started at offset `k`
is drawn at `pageHeight - baselineY - lineHeight * (k + i)`. -/
theorem renderWrappedLines_y (widthLine : String → ℚ) (st : LineStyle) :
    ∀ (lines : List String) (k i : ℕ) (op : DrawTextOp),
      (renderWrappedLines widthLine st lines (st.baselineY + st.lineHeight * k)).get? i =
        some op →
      op.y = st.pageHeight - st.baselineY - st.lineHeight * (k + i : ℕ) := by
  intro lines
  induction lines with
  | nil => intro k i op h; simp [renderWrappedLines] at h
  | cons line rest ih =>
    intro k i op h
    rw [renderWrappedLines] at h
    split at h
    · simp at h
    · cases i with
      | zero =>
        simp only [List.get?] at h
        injection h with h1
        subst h1
        push_cast
        ring
      | succ j =>
        simp only [List.get?] at h
        have harg : st.baselineY + st.lineHeight * (k : ℕ) + st.lineHeight =
            st.baselineY + st.lineHeight * ((k + 1 : ℕ) : ℚ) := by push_cast; ring
        rw [harg] at h
        have hres := ih (k + 1) j op h
        rw [hres]
        push_cast
        ring

/-- `renderWrappedLines_y` specialized to the loop's actual entry point
(`currentY = baselineY`). -/
theorem renderWrappedLines_y0 (widthLine : String → ℚ) (st : LineStyle)
    (lines : List String) (i : ℕ) (op : DrawTextOp)
    (h : (renderWrappedLines widthLine st lines st.baselineY).get? i = some op) :
    op.y = st.pageHeight - st.baselineY - st.lineHeight * (i : ℕ) := by
  have harg : st.baselineY = st.baselineY + st.lineHeight * ((0 : ℕ) : ℚ) := by
    push_cast; ring
  rw [harg] at h
  have hres := renderWrappedLines_y widthLine st lines 0 i op h
  rw [hres]
  push_cast
  ring

/-- The spec's end-to-end field: `name` at `x=50, y=50, size=12,
maxWidth=150`. -/
def acmeFieldMapping : FieldMapping :=
  { x := 50, y := 50, size := some 12, maxWidth := some 150 }

/-- The one draw operation `generate(doc, name := "Acme Corp")` emits for the
end-to-end field. -/
def acmeOp : DrawTextOp :=
  { text := "Acme Corp", x := 50, y := 800 - (50 + 12), size := 12,
    font := StdFont.Helvetica, color := hexToRgb "#000000" }

/-- C6: on both generation paths (their shared render body), the authoring
baseline is `fieldY + fontSize` and line `i` is drawn at render-space
`y = pageHeight - (fieldY + fontSize) - (fontSize + 2) * i`; the spec's
end-to-end field draws "Acme Corp" at baseline `pageHeight - 50 - 12`. -/
theorem coordinate_transform :
    (∀ (resolve : String → Bool → Bool → StdFont) (widthOf : WidthFn) (pageHeight : ℚ)
        (fm : FieldMapping) (textValue : String) (i : ℕ) (op : DrawTextOp),
      (renderFieldWith resolve widthOf pageHeight fm textValue).get? i = some op →
      op.y = pageHeight - (fm.y + qOr fm.size 12) - (qOr fm.size 12 + 2) * (i : ℕ)) ∧
    (renderFieldLegacy widthByLength 800 acmeFieldMapping (some "Acme Corp")).map
      (fun o => o.y) = [800 - 50 - 12] := by
  constructor
  · intro resolve widthOf pageHeight fm textValue i op h
    simp only [renderFieldWith] at h
    split at h
    · exact renderWrappedLines_y0 _ _ _ i op h
    · cases i with
      | zero =>
        simp only [List.get?] at h
        injection h with h1
        subst h1
        push_cast
        ring
      | succ j => simp [List.get?] at h
  · have hstep : renderFieldLegacy widthByLength 800 acmeFieldMapping (some "Acme Corp") =
        [acmeOp] := rfl
    rw [hstep]
    simp only [List.map, acmeOp]
    norm_num

/-- C6 witness: the end-to-end scenario's single line is at index 0, so its
computed baseline is `800 - (50 + 12)`. -/
theorem coordinate_transform_witness :
    acmeOp.y = 800 - (acmeFieldMapping.y + qOr acmeFieldMapping.size 12) -
      (qOr acmeFieldMapping.size 12 + 2) * ((0 : ℕ) : ℚ) :=
  coordinate_transform.1 resolveFontLegacy widthByLength 800 acmeFieldMapping "Acme Corp"
    0 acmeOp rfl

/-! ## C4 — vertical truncation rule -/

/-- The wrapped-line loop started at offset `k` renders exactly the prefix of
lines whose index `i` satisfies `lineHeight * (i + 1) ≤ maxHeight`: with a
positive line advance, the surviving texts are
`lines.take (toNat ⌊maxHeight / lineHeight⌋ - k)`. -/
theorem renderWrappedLines_take (widthLine : String → ℚ) (st : LineStyle)
    (hpos : 0 < st.lineHeight) :
    ∀ (lines : List String) (k : ℕ),
      (renderWrappedLines widthLine st lines (st.baselineY + st.lineHeight * k)).map
          (fun op => op.text) =
        lines.take ((⌊st.maxHeight / st.lineHeight⌋).toNat - k) := by
  intro lines
  induction lines with
  | nil => intro k; simp [renderWrappedLines]
  | cons line rest ih =>
    intro k
    rw [renderWrappedLines]
    have hcond : st.baselineY + st.lineHeight * (k : ℕ) - st.baselineY + st.lineHeight =
        st.lineHeight * ((k : ℚ) + 1) := by ring
    by_cases hgt : st.maxHeight < st.lineHeight * ((k : ℚ) + 1)
    · rw [if_pos (by rw [hcond]; exact hgt)]
      have hfl : ⌊st.maxHeight / st.lineHeight⌋ < (k : ℤ) + 1 := by
        have hdiv : st.maxHeight / st.lineHeight < (k : ℚ) + 1 := by
          rw [div_lt_iff₀ hpos]
          linarith [hgt]
        have hle := Int.floor_le (st.maxHeight / st.lineHeight)
        exact_mod_cast lt_of_le_of_lt hle hdiv
      have hz : (⌊st.maxHeight / st.lineHeight⌋).toNat ≤ k := by omega
      simp [Nat.sub_eq_zero_of_le hz]
    · rw [if_neg (by rw [hcond]; exact hgt)]
      have harg : st.baselineY + st.lineHeight * (k : ℕ) + st.lineHeight =
          st.baselineY + st.lineHeight * ((k + 1 : ℕ) : ℚ) := by push_cast; ring
      rw [harg]
      simp only [List.map]
      rw [ih (k + 1)]
      have hge : (k : ℤ) + 1 ≤ ⌊st.maxHeight / st.lineHeight⌋ := by
        have hdiv : ((k : ℚ) + 1) ≤ st.maxHeight / st.lineHeight := by
          rw [le_div_iff₀ hpos]
          linarith [not_lt.mp hgt]
        exact_mod_cast Int.le_floor.mpr (by exact_mod_cast hdiv)
      have hN : (⌊st.maxHeight / st.lineHeight⌋).toNat - k =
          ((⌊st.maxHeight / st.lineHeight⌋).toNat - (k + 1)) + 1 := by omega
      rw [hN, List.take_succ_cons]

/-- A field forcing the wrap branch (width 5 > maxWidth 4) with two wrapped
lines and `maxHeight = 20 < 2 * lineHeight`. -/
def truncFieldMapping : FieldMapping :=
  { x := 0, y := 0, size := some 12, maxWidth := some 4, maxHeight := some 20 }

/-- C4 counterexample: with `fontSize = 12` (line advance 14) and
`maxHeight = 20`, the second wrapped line has vertical offset
`lineAdvance * 1 = 14 ≤ 20`, so under the claimed rule it must be rendered —
yet the code drops it (only `"aa"` survives), because the actual test is
`offset + lineAdvance > maxHeight`. -/
theorem vertical_truncation_cex :
    (renderFieldLegacy widthByLength 800 truncFieldMapping (some "aa bb")).map
      (fun o => o.text) = ["aa"] ∧
    wrapText "aa bb" (widthByLength StdFont.Helvetica) 12 4 = ["aa", "bb"] ∧
    ((12 : ℚ) + 2) * 1 ≤ 20 := by
  refine ⟨?_, rfl, by norm_num⟩
  have hstep : renderFieldLegacy widthByLength 800 truncFieldMapping (some "aa bb") =
      renderWrappedLines (fun line => widthByLength StdFont.Helvetica line 12)
        { x := 0, align := "left", maxWidth := 4, pageHeight := 800, baselineY := 0 + 12,
          lineHeight := 12 + 2, maxHeight := 20, fontSize := 12,
          font := StdFont.Helvetica, color := hexToRgb "#000000" }
        ["aa", "bb"] (0 + 12) := rfl
  rw [hstep]
  simp only [renderWrappedLines]
  norm_num

/-- C4 (amended): lines stack with fixed advance `fontSize + 2`, and a wrapped
line of index `i` is dropped exactly when `(i + 1) * lineAdvance` — its offset
*plus one further line advance* — exceeds `maxHeight`; truncation is silent
(the surviving lines are a `take`-prefix, not an error), and an absent
`maxHeight` behaves exactly like the sentinel 1000. -/
theorem vertical_truncation_amended :
    (∀ (widthLine : String → ℚ) (st : LineStyle) (lines : List String),
      0 < st.lineHeight →
      (renderWrappedLines widthLine st lines st.baselineY).map (fun op => op.text) =
        lines.take (⌊st.maxHeight / st.lineHeight⌋).toNat) ∧
    (∀ (widthOf : WidthFn) (pageHeight : ℚ) (fm : FieldMapping) (v : Option String),
      fm.maxHeight = none →
      renderFieldLegacy widthOf pageHeight fm v =
        renderFieldLegacy widthOf pageHeight { fm with maxHeight := some 1000 } v) := by
  constructor
  · intro W st lines hpos
    have h0 : st.baselineY = st.baselineY + st.lineHeight * ((0 : ℕ) : ℚ) := by
      push_cast; ring
    rw [h0, renderWrappedLines_take W st hpos lines 0, Nat.sub_zero]
  · intro W pH fm v h
    cases v with
    | none => rfl
    | some t =>
      simp only [renderFieldLegacy, renderFieldWith, h]
      norm_num [qOr]

/-- A concrete style: line advance 14, height bound 20. -/
def demoStyle : LineStyle :=
  { x := 0, align := "left", maxWidth := 10, pageHeight := 800, baselineY := 12,
    lineHeight := 14, maxHeight := 20, fontSize := 12, font := StdFont.Helvetica,
    color := { r := 0, g := 0, b := 0 } }

/-- C4 witness: with advance 14 and bound 20, exactly
`toNat ⌊20 / 14⌋ = 1` of the three lines survives; and a mapping without
`maxHeight` renders like one with `maxHeight = 1000`. -/
theorem vertical_truncation_witness :
    (renderWrappedLines (fun s => (s.length : ℚ)) demoStyle ["a", "b", "c"]
      demoStyle.baselineY).map (fun op => op.text) = ["a"] ∧
    renderFieldLegacy widthByLength 800 { x := 0, y := 0 } (some "v") =
      renderFieldLegacy widthByLength 800
        { x := 0, y := 0, maxHeight := some 1000 } (some "v") := by
  constructor
  · have h := vertical_truncation_amended.1 (fun s => (s.length : ℚ)) demoStyle
      ["a", "b", "c"] (by norm_num [demoStyle])
    rw [h]
    have hfl : ⌊demoStyle.maxHeight / demoStyle.lineHeight⌋ = 1 := by
      rw [Int.floor_eq_iff]
      norm_num [demoStyle]
    rw [hfl]
    rfl
  · exact vertical_truncation_amended.2 widthByLength 800 { x := 0, y := 0 } (some "v") rfl

/-! ## C3 — word-wrap round-trip -/

/-- `split(' ')` never yields an empty fragment list. -/
theorem splitOnSpaceChars_ne_nil (l : List Char) : splitOnSpaceChars l ≠ [] := by
  cases l with
  | nil => simp [splitOnSpaceChars]
  | cons c rest =>
    rw [splitOnSpaceChars]
    split
    · simp
    · split <;> simp

/-- Joining the space-split fragments with single spaces is the identity at
the character level. -/
theorem joinSpaceChars_splitOnSpaceChars (l : List Char) :
    joinSpaceChars (splitOnSpaceChars l) = l := by
  induction l with
  | nil => rfl
  | cons c rest ih =>
    rw [splitOnSpaceChars]
    rcases hs : splitOnSpaceChars rest with _ | ⟨w, ws⟩
    · exact absurd hs (splitOnSpaceChars_ne_nil rest)
    · rw [hs] at ih
      show joinSpaceChars (if c = ' ' then [] :: w :: ws else (c :: w) :: ws) = c :: rest
      by_cases hc : c = ' '
      · subst hc
        rw [if_pos rfl]
        cases ws with
        | nil => simp [joinSpaceChars] at ih ⊢; exact ih
        | cons x xs => simp only [joinSpaceChars, List.nil_append] at ih ⊢; rw [ih]
      · rw [if_neg hc]
        cases ws with
        | nil => simp [joinSpaceChars] at ih ⊢; exact ih
        | cons x xs =>
          simp only [joinSpaceChars] at ih ⊢
          rw [List.cons_append, ih]

/-- Joining `text.split(' ')` with single spaces reconstructs `text`. -/
theorem joinWithSpaces_jsSplitSpace (t : String) :
    joinWithSpaces (jsSplitSpace t) = t := by
  unfold joinWithSpaces jsSplitSpace
  rw [List.map_map]
  have hid : (String.data ∘ fun w => (⟨w⟩ : String)) = id := rfl
  rw [hid, List.map_id, joinSpaceChars_splitOnSpaceChars]

/-- Unfolding `joinWithSpaces` over a nonempty tail. -/
theorem joinWithSpaces_cons (a : String) (ls : List String) (h : ls ≠ []) :
    joinWithSpaces (a :: ls) = a ++ " " ++ joinWithSpaces ls := by
  cases ls with
  | nil => exact absurd rfl h
  | cons b bs =>
    apply String.ext
    simp only [joinWithSpaces, List.map_cons, String.data_append]
    simp [joinSpaceChars]

/-- The wrap loop never discards a nonempty current line. -/
theorem wrapTextGo_ne_nil (font : String → ℚ → ℚ) (fontSize maxWidth : ℚ) :
    ∀ (ws : List String) (cur : String), cur ≠ "" →
      wrapTextGo font fontSize maxWidth ws cur ≠ [] := by
  intro ws
  induction ws with
  | nil => intro cur hcur; rw [wrapTextGo]; simp [hcur]
  | cons w rest ih =>
    intro cur hcur
    rw [wrapTextGo]
    simp only [if_neg hcur]
    split
    · simp
    · apply ih
      intro hcontra
      have hdata := congrArg String.data hcontra
      simp [String.data_append] at hdata
/-- Invariant of the wrap loop: when every remaining word is nonempty, the
space-join of the produced lines equals the space-join of the current line
followed by the remaining words. -/
theorem wrapTextGo_join (font : String → ℚ → ℚ) (fontSize maxWidth : ℚ) :
    ∀ (ws : List String) (cur : String), (∀ w ∈ ws, w ≠ "") → cur ≠ "" →
      joinWithSpaces (wrapTextGo font fontSize maxWidth ws cur) =
        joinWithSpaces (cur :: ws) := by
  intro ws
  induction ws with
  | nil => intro cur hall hcur; rw [wrapTextGo, if_neg hcur]
  | cons w rest ih =>
    intro cur hall hcur
    have hw : w ≠ "" := hall w (List.mem_cons_self w rest)
    have hall' : ∀ x ∈ rest, x ≠ "" := fun x hx => hall x (List.mem_cons_of_mem w hx)
    have htest : cur ++ " " ++ w ≠ "" := by
      intro hcontra
      have hdata := congrArg String.data hcontra
      simp [String.data_append] at hdata
    rw [wrapTextGo]
    simp only [if_neg hcur]
    split
    · rw [joinWithSpaces_cons cur _ (wrapTextGo_ne_nil font fontSize maxWidth rest w hw),
        ih w hall' hw,
        joinWithSpaces_cons cur (w :: rest) (by simp)]
    · rw [ih (cur ++ " " ++ w) hall' htest]
      cases rest with
      | nil =>
        rw [joinWithSpaces_cons cur [w] (by simp)]
        rfl
      | cons x xs =>
        rw [joinWithSpaces_cons (cur ++ " " ++ w) (x :: xs) (by simp),
          joinWithSpaces_cons cur (w :: x :: xs) (by simp),
          joinWithSpaces_cons w (x :: xs) (by simp)]
        simp [String.append_assoc]

/-- C3 (amended): for text whose space-split fragments are all nonempty (no
leading, trailing or consecutive spaces), joining the wrapped lines with
single spaces reconstructs the text exactly; and the rendered lines are
always a prefix of the wrapped lines, so any lines dropped by the height
bound are a contiguous suffix. -/
theorem wrap_roundtrip_amended :
    (∀ (text : String) (font : String → ℚ → ℚ) (fontSize maxWidth : ℚ),
      (∀ w ∈ jsSplitSpace text, w ≠ "") →
      joinWithSpaces (wrapText text font fontSize maxWidth) = text) ∧
    (∀ (widthLine : String → ℚ) (st : LineStyle) (lines : List String) (currentY : ℚ),
      (renderWrappedLines widthLine st lines currentY).map (fun op => op.text) <+: lines) := by
  constructor
  · intro t font fs mw hall
    unfold wrapText
    rcases hsplit : jsSplitSpace t with _ | ⟨w, ws⟩
    · have : splitOnSpaceChars t.data ≠ [] := splitOnSpaceChars_ne_nil t.data
      simp [jsSplitSpace] at hsplit
      exact absurd hsplit this
    · rw [hsplit] at hall
      have hw : w ≠ "" := hall w (List.mem_cons_self w ws)
      have hall' : ∀ x ∈ ws, x ≠ "" := fun x hx => hall x (List.mem_cons_of_mem w hx)
      have hstep : wrapTextGo font fs mw (w :: ws) "" = wrapTextGo font fs mw ws w := by
        rw [wrapTextGo]
        simp
      rw [hstep, wrapTextGo_join font fs mw ws w hall' hw, ← hsplit,
        joinWithSpaces_jsSplitSpace]
  · intro W st lines
    induction lines with
    | nil => intro cy; simp [renderWrappedLines]
    | cons l rest ih =>
      intro cy
      rw [renderWrappedLines]
      split
      · simp
      · simp only [List.map_cons]
        exact List.cons_prefix_cons.mpr ⟨rfl, ih (cy + st.lineHeight)⟩

/-- C3 counterexample: `"aa  bb"` (two spaces) wraps — with a width oracle
measuring one point per character and `maxWidth = 2` — into `["aa", "bb"]`,
whose single-space join `"aa bb"` is not the original text: a character is
lost, refuting the claim for arbitrary text. -/
theorem wrap_roundtrip_cex :
    wrapText "aa  bb" (fun s _ => (s.length : ℚ)) 1 2 = ["aa", "bb"] ∧
    joinWithSpaces ["aa", "bb"] = "aa bb" ∧
    "aa bb" ≠ "aa  bb" := ⟨rfl, rfl, by decide⟩

/-- C3 witness: a single-spaced text round-trips, and a rendered-lines prefix
instance. -/
theorem wrap_roundtrip_witness :
    joinWithSpaces (wrapText "hello world" (fun s _ => (s.length : ℚ)) 1 5) = "hello world" ∧
    (renderWrappedLines (fun s => (s.length : ℚ)) demoStyle ["a", "b"]
      demoStyle.baselineY).map (fun op => op.text) <+: ["a", "b"] := by
  constructor
  · exact wrap_roundtrip_amended.1 "hello world" _ 1 5 (by decide)
  · exact wrap_roundtrip_amended.2 _ demoStyle ["a", "b"] demoStyle.baselineY

end DrawingGen
